import Mathlib

/-!
Verification of the GreenSteps progress-statistics aggregator.

The aggregator is the endpoint body of GET /api/progress in backend/server.py
(function get_progress_stats).  The embedding below models a UTC datetime as an
integer count of seconds since the epoch; the Python dt.date() projection of a
UTC datetime is then floor division by 86400 (the day number), and comparison
of datetimes is integer comparison of timestamps.  Python int and float
arithmetic on the counts is modelled over Nat and the rationals.
-/

namespace GreenSteps

/-- Seconds in one calendar day; timedelta(days=k) is k * secondsPerDay. -/
def secondsPerDay : Int := 86400

/-- The calendar-day number of a UTC timestamp, i.e. the dt.date() projection.
Python floor division agrees with Int division here since 86400 > 0. -/
def dateOf (t : Int) : Int := t / 86400

/-- One habit document as the aggregator sees it: the fields of the Mongo
habit document that carry data (id and habit_type and description carry no
information the aggregator reads and are omitted; date and created_at are the
two timestamps, only date is meant to drive bucketing). -/
structure HabitEntry where
  user_id : String
  habit_name : String
  date : Int
  created_at : Int
deriving DecidableEq

/-- The response model ProgressStats of backend/server.py. -/
structure ProgressStats where
  total_habits : Nat
  this_week : Nat
  this_month : Nat
  current_streak : Nat
  completion_percentage : ℚ
  weekly_progress : List Nat
  monthly_progress : List Nat
deriving DecidableEq

/-- The repeated day-bucket expression
len([h for h in all_habits if h["date"].date() == day]). -/
def day_count (all_habits : List HabitEntry) (day : Int) : Nat :=
  (all_habits.filter (fun h => decide (dateOf h.date = day))).length

/-- The streak for-loop of get_progress_stats: at most fuel more iterations,
checking check_date, then check_date - 1, ...; a day with no entry breaks the
loop, a day with an entry adds 1 and continues. -/
def streakLoop (sorted_habits : List HabitEntry) (check_date : Int) : Nat → Nat
  | 0 => 0
  | fuel + 1 =>
    if (sorted_habits.filter (fun h => decide (dateOf h.date = check_date))).isEmpty then 0
    else streakLoop sorted_habits (check_date - 1) fuel + 1

/-- The current-streak computation: 0 for an empty entry list, otherwise the
30-iteration backward walk from now.date() over the entries sorted by date
descending (Python sorted with reverse=True; the sort permutes the list and
is otherwise irrelevant to the day filters). -/
def current_streak (all_habits : List HabitEntry) (now : Int) : Nat :=
  if all_habits.isEmpty then 0
  else
    streakLoop (List.insertionSort (fun a b => b.date ≤ a.date) all_habits)
      (dateOf now) 30

/-- The body of get_progress_stats in backend/server.py, lines 238-299, after
the entry list has been fetched. -/
def get_progress_stats (all_habits : List HabitEntry) (now : Int) : ProgressStats :=
  let week_ago := now - 7 * secondsPerDay
  let month_ago := now - 30 * secondsPerDay
  let total_habits := all_habits.length
  let this_week := (all_habits.filter (fun h => decide (week_ago ≤ h.date))).length
  let this_month := (all_habits.filter (fun h => decide (month_ago ≤ h.date))).length
  let streak := current_streak all_habits now
  let weekly_progress :=
    ((List.range 7).map (fun i : Nat => day_count all_habits (dateOf now - (i : Int)))).reverse
  let monthly_progress :=
    ((List.range 30).map (fun i : Nat => day_count all_habits (dateOf now - (i : Int)))).reverse
  let target_days : ℚ := 30
  let completion_percentage : ℚ :=
    if 0 < target_days then min 100 (((this_month : ℚ) / target_days) * 100) else 0
  { total_habits := total_habits
    this_week := this_week
    this_month := this_month
    current_streak := streak
    completion_percentage := completion_percentage
    weekly_progress := weekly_progress
    monthly_progress := monthly_progress }

/-- Modelled from the spec: Store.fetchEntries and its StoreUnavailable or
DataUnavailable failure condition live in the external store collaborator, not
in this repository.  A fetch outcome is either the entry list or that error. -/
inductive FetchError
  | dataUnavailable
deriving DecidableEq

/-- The whole endpoint: await the fetch, then aggregate.  The endpoint body
has no handler around the awaited fetch, so a fetch failure propagates to the
caller unchanged and no statistics are computed. -/
def progress_endpoint (fetched : Except FetchError (List HabitEntry)) (now : Int) :
    Except FetchError ProgressStats :=
  match fetched with
  | Except.error e => Except.error e
  | Except.ok all_habits => Except.ok (get_progress_stats all_habits now)

/-- A demonstration entry on day 100, one hour past midnight. -/
def eA : HabitEntry := ⟨"u1", "recycled items", 86400 * 100 + 3600, 86400 * 100 + 3600⟩

/-- A demonstration reference time: noon of day 100. -/
def demoNow : Int := 86400 * 100 + 43200

lemma day_count_nil (d : Int) : day_count [] d = 0 := rfl

lemma day_count_cons (x : HabitEntry) (t : List HabitEntry) (d : Int) :
    day_count (x :: t) d = day_count t d + (if dateOf x.date = d then 1 else 0) := by
  simp only [day_count, List.filter_cons]
  by_cases h : dateOf x.date = d
  · simp [h]
  · simp [h]

lemma day_count_perm {l₁ l₂ : List HabitEntry} (h : l₁.Perm l₂) (d : Int) :
    day_count l₁ d = day_count l₂ d :=
  (h.filter _).length_eq

lemma day_count_insertionSort (l : List HabitEntry) (d : Int) :
    day_count (List.insertionSort (fun a b => b.date ≤ a.date) l) d = day_count l d :=
  day_count_perm (List.perm_insertionSort _ l) d

lemma streakLoop_succ (l : List HabitEntry) (d : Int) (n : Nat) :
    streakLoop l d (n + 1) =
      if day_count l d = 0 then 0 else streakLoop l (d - 1) n + 1 := by
  simp only [streakLoop, day_count, List.isEmpty_iff, List.length_eq_zero]

lemma streakLoop_nil (d : Int) (n : Nat) : streakLoop [] d n = 0 := by
  cases n with
  | zero => rfl
  | succ m => rw [streakLoop_succ, if_pos (day_count_nil d)]

lemma streakLoop_le (l : List HabitEntry) :
    ∀ (n : Nat) (d : Int), streakLoop l d n ≤ n := by
  intro n
  induction n with
  | zero => intro d; exact Nat.le_refl 0
  | succ m ih =>
    intro d
    rw [streakLoop_succ]
    by_cases h0 : day_count l d = 0
    · rw [if_pos h0]; omega
    · rw [if_neg h0]
      have := ih (d - 1)
      omega

lemma streakLoop_pos (l : List HabitEntry) :
    ∀ (n : Nat) (d : Int) (k : Nat), k < streakLoop l d n →
      0 < day_count l (d - (k : Int)) := by
  intro n
  induction n with
  | zero => intro d k hk; simp [streakLoop] at hk
  | succ m ih =>
    intro d k hk
    rw [streakLoop_succ] at hk
    by_cases h0 : day_count l d = 0
    · rw [if_pos h0] at hk; omega
    · rw [if_neg h0] at hk
      cases k with
      | zero =>
        simp only [Nat.cast_zero, sub_zero]
        exact Nat.pos_of_ne_zero h0
      | succ j =>
        have hj : j < streakLoop l (d - 1) m := by omega
        have hdc := ih (d - 1) j hj
        have harg : d - 1 - (j : Int) = d - ((j + 1 : Nat) : Int) := by push_cast; ring
        rwa [harg] at hdc

lemma streakLoop_stop (l : List HabitEntry) :
    ∀ (n : Nat) (d : Int), streakLoop l d n < n →
      day_count l (d - (streakLoop l d n : Int)) = 0 := by
  intro n
  induction n with
  | zero => intro d h; omega
  | succ m ih =>
    intro d h
    rw [streakLoop_succ] at h ⊢
    by_cases h0 : day_count l d = 0
    · rw [if_pos h0] at h ⊢
      simpa using h0
    · rw [if_neg h0] at h ⊢
      have hm : streakLoop l (d - 1) m < m := by omega
      have hdc := ih (d - 1) hm
      have harg : d - 1 - (streakLoop l (d - 1) m : Int) =
          d - ((streakLoop l (d - 1) m + 1 : Nat) : Int) := by push_cast; ring
      rwa [harg] at hdc

lemma streakLoop_congr {l₁ l₂ : List HabitEntry}
    (hd : ∀ d, day_count l₁ d = day_count l₂ d) :
    ∀ (n : Nat) (d : Int), streakLoop l₁ d n = streakLoop l₂ d n := by
  intro n
  induction n with
  | zero => intro d; rfl
  | succ m ih =>
    intro d
    rw [streakLoop_succ, streakLoop_succ, hd, ih]

lemma current_streak_eq (l : List HabitEntry) (now : Int) :
    current_streak l now = streakLoop l (dateOf now) 30 := by
  unfold current_streak
  by_cases hl : l.isEmpty
  · rw [if_pos hl]
    have hnil : l = [] := List.isEmpty_iff.mp hl
    subst hnil
    exact (streakLoop_nil (dateOf now) 30).symm
  · rw [if_neg hl]
    exact streakLoop_congr (day_count_insertionSort l) 30 (dateOf now)

lemma sum_map_add_nat {α : Type} (f g : α → Nat) (l : List α) :
    (l.map (fun i => f i + g i)).sum = (l.map f).sum + (l.map g).sum := by
  induction l with
  | nil => rfl
  | cons x t ih =>
    simp only [List.map_cons, List.sum_cons, ih]
    omega

lemma count_hits (D today : Int) :
    ∀ k : Nat, ((List.range k).map (fun i : Nat => if D = today - (i : Int) then 1 else 0)).sum =
      if today - (k : Int) < D ∧ D ≤ today then 1 else 0 := by
  intro k
  induction k with
  | zero =>
    simp only [List.range_zero, List.map_nil, List.sum_nil, Nat.cast_zero, sub_zero]
    split_ifs with h
    · omega
    · rfl
  | succ m ih =>
    rw [List.range_succ, List.map_append, List.sum_append, ih]
    simp only [List.map_cons, List.map_nil, List.sum_cons, List.sum_nil]
    push_cast
    split_ifs <;> omega

lemma sum_day_count_range (today : Int) (k : Nat) (l : List HabitEntry) :
    ((List.range k).map (fun i : Nat => day_count l (today - (i : Int)))).sum =
      (l.filter
        (fun h => decide (today - (k : Int) < dateOf h.date ∧ dateOf h.date ≤ today))).length := by
  induction l with
  | nil =>
    simp [day_count_nil]
  | cons x t ih =>
    have hcons : (fun i : Nat => day_count (x :: t) (today - (i : Int))) =
        fun i : Nat => day_count t (today - (i : Int)) +
          (if dateOf x.date = today - (i : Int) then 1 else 0) := by
      funext i; rw [day_count_cons]
    rw [hcons, sum_map_add_nat, ih, count_hits, List.filter_cons]
    by_cases hx : today - (k : Int) < dateOf x.date ∧ dateOf x.date ≤ today
    · simp [hx]
    · simp [hx]

lemma length_filter_le_filter {α : Type} (p q : α → Bool) (l : List α)
    (h : ∀ a ∈ l, p a = true → q a = true) :
    (l.filter p).length ≤ (l.filter q).length := by
  induction l with
  | nil => simp
  | cons x t ih =>
    have ht : ∀ a ∈ t, p a = true → q a = true :=
      fun a ha => h a (List.mem_cons_of_mem _ ha)
    have iht := ih ht
    rw [List.filter_cons, List.filter_cons]
    by_cases hp : p x = true
    · rw [if_pos hp, if_pos (h x (List.mem_cons_self _ _) hp)]
      simpa using iht
    · rw [if_neg hp]
      by_cases hq : q x = true
      · rw [if_pos hq]
        simp only [List.length_cons]
        omega
      · rw [if_neg hq]
        exact iht

lemma reverse_map_range_getD {α : Type} (f : Nat → α) (d : α) (n i : Nat) (hi : i < n) :
    (((List.range n).map f).reverse).getD i d = f (n - 1 - i) := by
  have hlen : (((List.range n).map f).reverse).length = n := by simp
  rw [List.getD_eq_getElem _ _ (by rw [hlen]; exact hi)]
  rw [List.getElem_reverse, List.getElem_map, List.getElem_range]
  congr 1
  simp

lemma forall₂_map_date {l₁ l₂ : List HabitEntry}
    (h : List.Forall₂
      (fun a b => a.user_id = b.user_id ∧ a.habit_name = b.habit_name ∧ a.date = b.date)
      l₁ l₂) :
    l₁.map HabitEntry.date = l₂.map HabitEntry.date := by
  induction h with
  | nil => rfl
  | cons hab _ ih =>
    simp only [List.map_cons, ih, hab.2.2]

lemma length_filter_eq_of_map_date_eq (p : Int → Bool) :
    ∀ {l₁ l₂ : List HabitEntry}, l₁.map HabitEntry.date = l₂.map HabitEntry.date →
      (l₁.filter (fun x => p x.date)).length = (l₂.filter (fun x => p x.date)).length := by
  intro l₁
  induction l₁ with
  | nil =>
    intro l₂ h
    cases l₂ with
    | nil => rfl
    | cons y s => simp at h
  | cons x t ih =>
    intro l₂ h
    cases l₂ with
    | nil => simp at h
    | cons y s =>
      simp only [List.map_cons, List.cons.injEq] at h
      obtain ⟨h1, h2⟩ := h
      rw [List.filter_cons, List.filter_cons, h1]
      by_cases hp : p y.date = true
      · rw [if_pos hp, if_pos hp]
        simp only [List.length_cons]
        rw [ih h2]
      · rw [if_neg hp, if_neg hp]
        exact ih h2

lemma day_count_eq_of_map_date_eq {l₁ l₂ : List HabitEntry}
    (h : l₁.map HabitEntry.date = l₂.map HabitEntry.date) (d : Int) :
    day_count l₁ d = day_count l₂ d := by
  unfold day_count
  exact length_filter_eq_of_map_date_eq (fun s => decide (dateOf s = d)) h

lemma completion_eq (all_habits : List HabitEntry) (now : Int) :
    (get_progress_stats all_habits now).completion_percentage =
      min 100 ((((get_progress_stats all_habits now).this_month : ℚ) / 30) * 100) := by
  simp only [get_progress_stats]
  rw [if_pos (by norm_num : (0 : ℚ) < 30)]

lemma current_streak_proj (all_habits : List HabitEntry) (now : Int) :
    (get_progress_stats all_habits now).current_streak =
      streakLoop all_habits (dateOf now) 30 := by
  simp only [get_progress_stats]
  exact current_streak_eq all_habits now

/-- C1: current_streak is a backward walk of at most 30 calendar days from
now.date(): it is at most 30, every day strictly before the streak front has
at least one entry, the first day past the streak (when fewer than 30 days
were consumed) has none, and it is 0 whenever no entry is dated today. -/
theorem C1_current_streak_walk (habits : List HabitEntry) (now : Int) :
    (get_progress_stats habits now).current_streak ≤ 30 ∧
    (∀ k : Nat, k < (get_progress_stats habits now).current_streak →
      0 < day_count habits (dateOf now - (k : Int))) ∧
    ((get_progress_stats habits now).current_streak < 30 →
      day_count habits
        (dateOf now - ((get_progress_stats habits now).current_streak : Int)) = 0) ∧
    (day_count habits (dateOf now) = 0 →
      (get_progress_stats habits now).current_streak = 0) := by
  rw [current_streak_proj habits now]
  refine ⟨streakLoop_le habits 30 (dateOf now),
    fun k hk => streakLoop_pos habits 30 (dateOf now) k hk,
    streakLoop_stop habits 30 (dateOf now), ?_⟩
  intro h0
  rw [show (30 : Nat) = 29 + 1 from rfl, streakLoop_succ, if_pos h0]

/-- Witness for C1 at a concrete input: one entry dated on the reference day
gives a positive streak, so day 0 of the walk has an entry. -/
theorem C1_current_streak_walk_witness :
    0 < day_count [eA] (dateOf demoNow - ((0 : Nat) : Int)) :=
  (C1_current_streak_walk [eA] demoNow).2.1 0 (by decide)

/-- C2: completion_percentage is min(100, this_month / 30 * 100); it is 100
when this_month is at least 30 and this_month * 100 / 30 otherwise; the
denominator is the fixed constant 30. -/
theorem C2_completion_percentage (habits : List HabitEntry) (now : Int) :
    (get_progress_stats habits now).completion_percentage =
      min 100 ((((get_progress_stats habits now).this_month : ℚ) / 30) * 100) ∧
    (30 ≤ (get_progress_stats habits now).this_month →
      (get_progress_stats habits now).completion_percentage = 100) ∧
    ((get_progress_stats habits now).this_month < 30 →
      (get_progress_stats habits now).completion_percentage =
        ((get_progress_stats habits now).this_month : ℚ) * 100 / 30) := by
  have h1 := completion_eq habits now
  refine ⟨h1, ?_, ?_⟩
  · intro h30
    rw [h1]
    have hc : (30 : ℚ) ≤ ((get_progress_stats habits now).this_month : ℚ) := by
      exact_mod_cast h30
    have hx : (100 : ℚ) ≤ (((get_progress_stats habits now).this_month : ℚ) / 30) * 100 := by
      rw [div_mul_eq_mul_div, le_div_iff₀ (by norm_num : (0 : ℚ) < 30)]
      linarith
    rw [min_eq_left hx]
  · intro h30
    rw [h1]
    have hc : ((get_progress_stats habits now).this_month : ℚ) ≤ 30 := by
      exact_mod_cast h30.le
    have hx : (((get_progress_stats habits now).this_month : ℚ) / 30) * 100 ≤ 100 := by
      rw [div_mul_eq_mul_div, div_le_iff₀ (by norm_num : (0 : ℚ) < 30)]
      linarith
    rw [min_eq_right hx]
    ring

/-- Witness for C2 at a concrete input: the empty entry set has this_month
strictly below 30, and its completion percentage is this_month * 100 / 30. -/
theorem C2_completion_percentage_witness :
    (get_progress_stats [] 0).completion_percentage =
      ((get_progress_stats [] 0).this_month : ℚ) * 100 / 30 :=
  (C2_completion_percentage [] 0).2.2 (by decide)

/-- C3: weekly_progress has exactly 7 day buckets and monthly_progress
exactly 30, for every entry set; position i of weekly_progress counts the
entries of calendar day today - 6 + i, and position i of monthly_progress
counts the entries of calendar day today - 29 + i (oldest first). -/
theorem C3_progress_vector_shape (habits : List HabitEntry) (now : Int) :
    (get_progress_stats habits now).weekly_progress.length = 7 ∧
    (get_progress_stats habits now).monthly_progress.length = 30 ∧
    (∀ i : Nat, i < 7 →
      (get_progress_stats habits now).weekly_progress.getD i 0 =
        day_count habits (dateOf now - 6 + (i : Int))) ∧
    (∀ i : Nat, i < 30 →
      (get_progress_stats habits now).monthly_progress.getD i 0 =
        day_count habits (dateOf now - 29 + (i : Int))) := by
  refine ⟨by simp [get_progress_stats], by simp [get_progress_stats], ?_, ?_⟩
  · intro i hi
    simp only [get_progress_stats]
    rw [reverse_map_range_getD _ _ 7 i hi]
    congr 1
    omega
  · intro i hi
    simp only [get_progress_stats]
    rw [reverse_map_range_getD _ _ 30 i hi]
    congr 1
    omega

/-- Witness for C3 at a concrete input: bucket 3 of the weekly vector of a
one-entry set counts the entries of day today - 6 + 3. -/
theorem C3_progress_vector_shape_witness :
    (get_progress_stats [eA] demoNow).weekly_progress.getD 3 0 =
      day_count [eA] (dateOf demoNow - 6 + ((3 : Nat) : Int)) :=
  (C3_progress_vector_shape [eA] demoNow).2.2.1 3 (by decide)

/-- C4: when every entry is dated no later than now, the window counts are
nested: this_week is at most this_month, which is at most total_habits. -/
theorem C4_window_counts_nested (habits : List HabitEntry) (now : Int)
    (hle : ∀ h ∈ habits, h.date ≤ now) :
    (get_progress_stats habits now).this_week ≤
        (get_progress_stats habits now).this_month ∧
    (get_progress_stats habits now).this_month ≤
        (get_progress_stats habits now).total_habits := by
  simp only [get_progress_stats]
  constructor
  · apply length_filter_le_filter
    intro a _ hp
    simp only [decide_eq_true_eq, secondsPerDay] at hp ⊢
    omega
  · exact List.length_filter_le _ _

/-- Witness for C4 at a concrete input: a one-entry set dated before now. -/
theorem C4_window_counts_nested_witness :
    (get_progress_stats [eA] demoNow).this_week ≤
        (get_progress_stats [eA] demoNow).this_month ∧
    (get_progress_stats [eA] demoNow).this_month ≤
        (get_progress_stats [eA] demoNow).total_habits :=
  C4_window_counts_nested [eA] demoNow (by decide)

/-- C5: when every entry falls on a calendar day between today - 6 and today
and no two entries share a day, the weekly day buckets sum to this_week. -/
theorem C5_weekly_sum_eq_this_week (habits : List HabitEntry) (now : Int)
    (hin : ∀ h ∈ habits,
      dateOf now - 6 ≤ dateOf h.date ∧ dateOf h.date ≤ dateOf now)
    (hdist : habits.Pairwise (fun a b => dateOf a.date ≠ dateOf b.date)) :
    (get_progress_stats habits now).weekly_progress.sum =
      (get_progress_stats habits now).this_week := by
  simp only [get_progress_stats]
  rw [List.sum_reverse, sum_day_count_range]
  have h1 : habits.filter
      (fun h => decide (dateOf now - ((7 : Nat) : Int) < dateOf h.date ∧
        dateOf h.date ≤ dateOf now)) = habits := by
    apply List.filter_eq_self.mpr
    intro a ha
    have hb := hin a ha
    simp only [decide_eq_true_eq]
    push_cast
    omega
  have h2 : habits.filter (fun h => decide (now - 7 * secondsPerDay ≤ h.date)) = habits := by
    apply List.filter_eq_self.mpr
    intro a ha
    have hb := hin a ha
    simp only [decide_eq_true_eq]
    simp only [dateOf, secondsPerDay] at hb ⊢
    omega
  rw [h1, h2]

/-- Witness for C5 at a concrete input: a single entry dated today. -/
theorem C5_weekly_sum_eq_this_week_witness :
    (get_progress_stats [eA] demoNow).weekly_progress.sum =
      (get_progress_stats [eA] demoNow).this_week :=
  C5_weekly_sum_eq_this_week [eA] demoNow (by decide) (by simp)

/-- C6 fails as stated: no entry set of 35 entries that are all dated inside
the last-30-days window can produce this_month = 34, because the this_month
filter then keeps all 35 entries.  The remaining scenario conditions (one
entry per day, today missing, streak 0) only restrict the set further. -/
theorem C6_scenario_counterexample :
    ¬ ∃ (habits : List HabitEntry) (now : Int),
        habits.length = 35 ∧
        (∀ h ∈ habits, now - 30 * secondsPerDay ≤ h.date ∧ h.date ≤ now) ∧
        (∀ h ∈ habits, dateOf h.date ≠ dateOf now) ∧
        (get_progress_stats habits now).current_streak = 0 ∧
        (get_progress_stats habits now).this_month = 34 := by
  rintro ⟨habits, now, hlen, hin, -, -, hmonth⟩
  have h35 : (get_progress_stats habits now).this_month = 35 := by
    simp only [get_progress_stats]
    rw [List.filter_eq_self.mpr, hlen]
    intro a ha
    simp only [decide_eq_true_eq]
    exact (hin a ha).1
  omega

/-- Demonstration reference time for the amended C6 scenario: noon of
day 1000. -/
def c6Now : Int := 86400 * 1000 + 43200

/-- Entry set for the amended C6 scenario: 34 entries dated inside the
30-day window (days 971 to 999, one each, plus five extra on day 999), one
stale entry on day 900, and no entry on day 1000 (the reference day). -/
def c6Habits : List HabitEntry :=
  ((List.range 29).map
    (fun i : Nat => (⟨"u1", "walked", 86400 * (999 - (i : Int)) + 3600, 0⟩ : HabitEntry))) ++
  ((List.range 5).map
    (fun i : Nat => (⟨"u1", "walked", 86400 * 999 + 7200 + (i : Int), 0⟩ : HabitEntry))) ++
  [(⟨"u1", "walked", 86400 * 900, 0⟩ : HabitEntry)]

/-- C6 amended: there is an entry set of 35 entries, 34 of them dated within
the last 30 days and none dated on today's calendar day, for which the
aggregator returns current_streak = 0 while this_month = 34. -/
theorem C6_scenario_amended :
    c6Habits.length = 35 ∧
    day_count c6Habits (dateOf c6Now) = 0 ∧
    (get_progress_stats c6Habits c6Now).current_streak = 0 ∧
    (get_progress_stats c6Habits c6Now).this_month = 34 := by
  decide

/-- C7: the aggregator reads only the date field of an entry; two entry sets
that agree entrywise on user_id, habit_name and date (so differ at most in
created_at) produce identical statistics. -/
theorem C7_created_at_never_read (l₁ l₂ : List HabitEntry) (now : Int)
    (h : List.Forall₂
      (fun a b => a.user_id = b.user_id ∧ a.habit_name = b.habit_name ∧ a.date = b.date)
      l₁ l₂) :
    get_progress_stats l₁ now = get_progress_stats l₂ now := by
  have hmap := forall₂_map_date h
  have hlen : l₁.length = l₂.length := h.length_eq
  have hdc : ∀ d, day_count l₁ d = day_count l₂ d :=
    fun d => day_count_eq_of_map_date_eq hmap d
  have hweek : (l₁.filter (fun x => decide (now - 7 * secondsPerDay ≤ x.date))).length =
      (l₂.filter (fun x => decide (now - 7 * secondsPerDay ≤ x.date))).length :=
    length_filter_eq_of_map_date_eq (fun s => decide (now - 7 * secondsPerDay ≤ s)) hmap
  have hmonth : (l₁.filter (fun x => decide (now - 30 * secondsPerDay ≤ x.date))).length =
      (l₂.filter (fun x => decide (now - 30 * secondsPerDay ≤ x.date))).length :=
    length_filter_eq_of_map_date_eq (fun s => decide (now - 30 * secondsPerDay ≤ s)) hmap
  have hstreak : current_streak l₁ now = current_streak l₂ now := by
    rw [current_streak_eq, current_streak_eq]
    exact streakLoop_congr hdc 30 (dateOf now)
  have hfun : (fun i : Nat => day_count l₁ (dateOf now - (i : Int))) =
      fun i : Nat => day_count l₂ (dateOf now - (i : Int)) :=
    funext fun i => hdc _
  simp only [get_progress_stats, ProgressStats.mk.injEq]
  exact ⟨hlen, hweek, hmonth, hstreak, by rw [hmonth], by rw [hfun], by rw [hfun]⟩

/-- Witness for C7 at a concrete input: two one-entry sets that differ only
in created_at yield the same statistics structure. -/
theorem C7_created_at_never_read_witness :
    get_progress_stats [⟨"u1", "recycled items", 86400 * 100 + 3600, 7⟩] demoNow =
      get_progress_stats [⟨"u1", "recycled items", 86400 * 100 + 3600, 99999⟩] demoNow :=
  C7_created_at_never_read _ _ demoNow (by simp)

/-- C8: a failed fetch propagates to the caller unchanged as the distinct
DataUnavailable condition and is never surfaced as a successful (empty or
zero) statistics payload; statistics are computed only on a successful
fetch. -/
theorem C8_fetch_failure_propagates :
    ∀ (now : Int) (e : FetchError),
      progress_endpoint (Except.error e) now = Except.error e ∧
      (∀ s : ProgressStats, progress_endpoint (Except.error e) now ≠ Except.ok s) ∧
      (∀ l : List HabitEntry,
        progress_endpoint (Except.ok l) now = Except.ok (get_progress_stats l now)) := by
  intro now e
  refine ⟨rfl, ?_, fun l => rfl⟩
  intro s hs
  simp [progress_endpoint] at hs

/-- C9: the weekly vector is the last 7 entries of the monthly vector, both
as a list equation and bucket by bucket. -/
theorem C9_weekly_is_monthly_suffix (habits : List HabitEntry) (now : Int) :
    (get_progress_stats habits now).weekly_progress =
      (get_progress_stats habits now).monthly_progress.drop 23 ∧
    (∀ i : Nat, i < 7 →
      (get_progress_stats habits now).weekly_progress.getD i 0 =
        (get_progress_stats habits now).monthly_progress.getD (23 + i) 0) := by
  constructor
  · rfl
  · intro i hi
    simp only [get_progress_stats]
    rw [reverse_map_range_getD _ _ 7 i hi,
      reverse_map_range_getD _ _ 30 (23 + i) (by omega)]
    congr 2
    omega

/-- Witness for C9 at a concrete input: bucket 3 of the weekly vector equals
bucket 26 of the monthly vector. -/
theorem C9_weekly_is_monthly_suffix_witness :
    (get_progress_stats [eA] demoNow).weekly_progress.getD 3 0 =
      (get_progress_stats [eA] demoNow).monthly_progress.getD (23 + 3) 0 :=
  (C9_weekly_is_monthly_suffix [eA] demoNow).2 3 (by decide)

/-- C10: when every entry is dated no later than now, the streak never
exceeds this_month: each of the current_streak consecutive days contributes
at least one distinct entry inside the 30-day window. -/
theorem C10_streak_le_this_month (habits : List HabitEntry) (now : Int)
    (hle : ∀ h ∈ habits, h.date ≤ now) :
    (get_progress_stats habits now).current_streak ≤
      (get_progress_stats habits now).this_month := by
  have hm : (get_progress_stats habits now).this_month =
      (habits.filter (fun h => decide (now - 30 * secondsPerDay ≤ h.date))).length := by
    simp only [get_progress_stats]
  rw [current_streak_proj habits now, hm]
  have hk30 : streakLoop habits (dateOf now) 30 ≤ 30 :=
    streakLoop_le habits 30 (dateOf now)
  have hpos : ∀ i : Nat, i < streakLoop habits (dateOf now) 30 →
      0 < day_count habits (dateOf now - (i : Int)) :=
    fun i hi => streakLoop_pos habits 30 (dateOf now) i hi
  have hsum : streakLoop habits (dateOf now) 30 ≤
      ((List.range (streakLoop habits (dateOf now) 30)).map
        (fun i : Nat => day_count habits (dateOf now - (i : Int)))).sum := by
    have hlen : ((List.range (streakLoop habits (dateOf now) 30)).map
        (fun i : Nat => day_count habits (dateOf now - (i : Int)))).length =
          streakLoop habits (dateOf now) 30 := by simp
    calc streakLoop habits (dateOf now) 30
        = ((List.range (streakLoop habits (dateOf now) 30)).map
            (fun i : Nat => day_count habits (dateOf now - (i : Int)))).length := hlen.symm
      _ ≤ _ := by
          apply List.length_le_sum_of_one_le
          intro x hx
          simp only [List.mem_map, List.mem_range] at hx
          obtain ⟨i, hi, rfl⟩ := hx
          exact hpos i hi
  rw [sum_day_count_range] at hsum
  refine le_trans hsum (length_filter_le_filter _ _ _ ?_)
  intro a ha hcond
  simp only [decide_eq_true_eq] at hcond ⊢
  generalize hgen : streakLoop habits (dateOf now) 30 = k at hcond hk30
  simp only [dateOf, secondsPerDay] at hcond ⊢
  omega

/-- Witness for C10 at a concrete input: a one-entry set dated before now. -/
theorem C10_streak_le_this_month_witness :
    (get_progress_stats [eA] demoNow).current_streak ≤
      (get_progress_stats [eA] demoNow).this_month :=
  C10_streak_le_this_month [eA] demoNow (by decide)

end GreenSteps
